import Mathlib

/-!
Verification development for the kivinge repository (a FUSE mount of the
Kivra mailbox). We give a shallow embedding of the code under scrutiny:

* `src/cache.rs` — the staleness-bounded cache (`Cache`, `Cache.lookup`,
  `Cache.insert`, `Cache.cached_get`);
* `src/model/content.rs` — the inbox listing construction
  (`InboxListing::from_content_specs`);
* `src/fuse.rs` — the inode codec (`Inode::to_u64` and the two extractors),
  the error enum, the cache configuration chosen in `mount`, the attachment
  content resolution match, the read slicing logic and the readdir
  pagination logic.

Machine integers are modelled as `Nat`/`Int`, with an explicit `% 2 ^ w`
where wrap-around matters. Wall-clock time (`chrono::DateTime<Utc>`) is
modelled as an `Int` timestamp; the caller passes the current instant
explicitly. Fallible Rust code returns `Except`/`Option`; `none` models a
Rust panic where noted.
-/

namespace Kivinge

/-! ## src/cache.rs -/

/-- Embeds `CacheValue<Value>` (cache.rs:7-10): a value paired with the
instant it was stored. `chrono::DateTime<Utc>` is modelled as an `Int`
timestamp in seconds. -/
structure CacheValue (V : Type) where
  updated_at : Int
  value : V
deriving DecidableEq

/-- Embeds `Cache<Key, Value>` (cache.rs:12-15). The `HashMap` is modelled
as an association list whose first matching pair wins; `insert` conses a
fresh pair at the front, which is observationally the map update. The
`TimeDelta` expiry is an `Int` number of seconds. -/
structure Cache (K V : Type) where
  cache : List (K × CacheValue V)
  expiry_time : Int
deriving DecidableEq

/-- First-match association lookup, the model of `HashMap::get`. -/
def assocFind {K V : Type} [DecidableEq K] : List (K × CacheValue V) → K → Option (CacheValue V)
  | [], _ => none
  | (k1, v) :: rest, k => if k1 = k then some v else assocFind rest k

/-- Embeds `Cache::lookup` (cache.rs:27-40): a stored entry whose age
`now - updated_at` exceeds `expiry_time` is reported as absent. The Rust
code reads `Utc::now()` internally; here the instant `now` is an explicit
argument. -/
def Cache.lookup {K V : Type} [DecidableEq K] (c : Cache K V) (now : Int) (k : K) : Option V :=
  match assocFind c.cache k with
  | none => none
  | some entry =>
    if now - entry.updated_at > c.expiry_time then none else some entry.value

/-- Embeds `Cache::insert` (cache.rs:42-44): store the value stamped with
the current instant. -/
def Cache.insert {K V : Type} (c : Cache K V) (now : Int) (k : K) (v : V) : Cache K V :=
  { c with cache := (k, ⟨now, v⟩) :: c.cache }

/-- The miss branch of `Cache::cached_get` (cache.rs:57-59), applied to the
result of the single `getter()` invocation: a success is inserted before it
is returned, an error is returned with the cache unchanged. The trailing
`Nat` counts getter invocations (always 1 on this branch). -/
def Cache.missResult {K V E : Type} (c : Cache K V) (now : Int) (k : K) :
    Except E V → Except E V × Cache K V × Nat
  | .error e => (.error e, c, 1)
  | .ok v => (.ok v, c.insert now k v, 1)

/-- Embeds `Cache::cached_get` (cache.rs:46-61). The result is the returned
`Result`, the cache state after the call, and the number of times the
getter was invoked during the call. -/
def Cache.cached_get {K V E : Type} [DecidableEq K] (c : Cache K V) (now : Int) (k : K)
    (getter : Unit → Except E V) : Except E V × Cache K V × Nat :=
  match c.lookup now k with
  | some v => (.ok v, c, 0)
  | none => c.missResult now k (getter ())

/-! ## src/model/content.rs -/

/-- Embeds `InboxItem` (content.rs:15-44), keeping the fields the verified
operations touch: the remote content key, the sender display name, the
creation timestamp (as an `Int` epoch value, which carries the full
`DateTime<Utc>` order), and the subject. The remaining payload fields
(status, labels, payment data, ...) are never inspected by the listing
construction or the filesystem driver and are omitted. -/
structure InboxItem where
  key : String
  sender_name : String
  created_at : Int
  subject : String
deriving DecidableEq

/-- Embeds `InboxEntry` (content.rs:47-50): a locally assigned sequence
number paired with the fetched item. -/
structure InboxEntry where
  id : Nat
  item : InboxItem
deriving DecidableEq

/-- The comparison `a.created_at.cmp(&b.created_at)` passed to `sort_by`
in `from_content_specs` (content.rs:72), as a binary relation. -/
def createdLe (a b : InboxItem) : Prop := a.created_at ≤ b.created_at

instance : DecidableRel createdLe :=
  fun a b => inferInstanceAs (Decidable (a.created_at ≤ b.created_at))

instance : IsTotal InboxItem createdLe := ⟨fun a b => Int.le_total a.created_at b.created_at⟩

instance : IsTrans InboxItem createdLe := ⟨fun _ _ _ h1 h2 => le_trans h1 h2⟩

/-- The strict version of `createdLe`, used to state uniqueness of the
sorted order when timestamps are pairwise distinct. -/
def createdLt (a b : InboxItem) : Prop := a.created_at < b.created_at

instance : IsAntisymm InboxItem createdLt :=
  ⟨fun _ _ h1 h2 => absurd (h1.trans h2) (lt_irrefl _)⟩

/-- Model of `vec.sort_by(|a, b| a.created_at.cmp(&b.created_at))`
(content.rs:72). Rust `sort_by` is a stable sort; `List.insertionSort`
with the reflexive comparison `createdLe` is stable in the same sense
(equal keys keep their input order), and stable sorts by the same key
agree on every input, so this is an observationally exact model. -/
def sortItems (l : List InboxItem) : List InboxItem :=
  List.insertionSort createdLe l

/-- Model of `.zip(1..)` followed by the construction of `InboxEntry`
values (content.rs:73-77): number a list of items consecutively starting
from `n`. -/
def numberFrom (n : Nat) : List InboxItem → List InboxEntry
  | [] => []
  | x :: xs => ⟨n, x⟩ :: numberFrom (n + 1) xs

/-- Embeds `InboxListing::from_content_specs` (content.rs:71-79): sort the
fetched items by creation timestamp ascending and assign 1-based sequence
numbers in that order. The `InboxListing` newtype around the vector is
elided. -/
def from_content_specs (vec : List InboxItem) : List InboxEntry :=
  numberFrom 1 (sortItems vec)

/-! ## src/fuse.rs — inode codec, errors, configuration -/

/-- Embeds the `Inode` enum (fuse.rs:48-61). The codec only reads
`entry.id`, `inbox_entry_id` and `attachment_id`, so only those `u32`
identifiers are carried; the attached `InboxEntry`, `ItemDetails`,
`item_key` and `Attachment` payloads do not influence `to_u64`. -/
inductive Inode where
  | root
  | inboxEntry (entry_id : Nat)
  | attachment (inbox_entry_id : Nat) (attachment_id : Nat)
deriving DecidableEq

/-- Embeds `Inode::to_u64` (fuse.rs:64-72). `Root` is 1; an `InboxEntry`
is `entry.id as u64 + 1` (no shift, so the value sits in the low 32 bits);
an `Attachment` is `(inbox_entry_id as u64 + 1) << 32 + attachment_id`
(no +1 offset on the attachment id). The `u64` shift discards bits above
2 ^ 64, hence the `% 2 ^ 64`; the id fields are `u32` values, assumed
below 2 ^ 32. -/
def Inode.to_u64 : Inode → Nat
  | .root => 1
  | .inboxEntry entry_id => entry_id + 1
  | .attachment inbox_entry_id attachment_id =>
    ((inbox_entry_id + 1) * 2 ^ 32 + attachment_id) % 2 ^ 64

/-- Embeds `Inode::entry_id` (fuse.rs:74-76): `inode_id.shr(32) as u32`.
A result of 0 is how the driver recognises the root. -/
def Inode.entry_id (inode_id : Nat) : Nat := inode_id / 2 ^ 32 % 2 ^ 32

/-- Embeds `Inode::attachment_id` (fuse.rs:78-80): `inode_id as u32`, the
low 32 bits. A result of 0 is how the driver recognises a directory. -/
def Inode.attachment_id (inode_id : Nat) : Nat := inode_id % 2 ^ 32

/-- Embeds the `Error` enum (fuse.rs:20-25). It has exactly the four
variants below; in particular there is no `IsNotDir` variant. -/
inductive Error where
  | notFound
  | internalError
  | invalid
  | isDir
deriving DecidableEq

/-- POSIX errno values used by fuse.rs (via the `libc` crate). -/
def ENOENT : Nat := 2

def EFAULT : Nat := 14

def ENOTDIR : Nat := 20

def EISDIR : Nat := 21

def EINVAL : Nat := 22

/-- Embeds the cache constructor used in `mount` (fuse.rs:34-36), one of
the three types from the `cached` crate: `TimedSizedCache` (size bound,
LRU eviction, and a lifespan), `TimedCache` (lifespan only, unbounded
count) or `SizedCache` (LRU size bound only, no lifespan). -/
inductive CacheKind where
  | timedSized
  | timed
  | sized
deriving DecidableEq

/-- Whether the `cached` crate type evicts by least-recently-used order
when its size bound is reached. -/
def CacheKind.lruEviction : CacheKind → Bool
  | .timedSized => true
  | .timed => false
  | .sized => true

/-- The tuning of one cache as chosen at construction time: the crate type,
the entry-count capacity (`none` = unbounded by count) and the time-to-live
in seconds (`none` = no time-based expiry). -/
structure CacheConfig where
  kind : CacheKind
  capacity : Option Nat
  lifespan_secs : Option Nat
deriving DecidableEq

/-- Embeds `TTL` (fuse.rs:218): `Duration::from_secs(60)`. -/
def TTL : Nat := 60

/-- Embeds `inbox_cache: TimedSizedCache::with_size_and_lifespan(1, TTL.into())`
(fuse.rs:34). -/
def inbox_cache_config : CacheConfig := ⟨.timedSized, some 1, some TTL⟩

/-- Embeds `details_cache: TimedCache::with_lifespan(TTL.into())`
(fuse.rs:35). -/
def details_cache_config : CacheConfig := ⟨.timed, none, some TTL⟩

/-- Embeds `attachment_cache: SizedCache::with_size(10)` (fuse.rs:36). -/
def attachment_cache_config : CacheConfig := ⟨.sized, some 10, none⟩

/-! ## src/fuse.rs — attachment content resolution -/

/-- Embeds `Attachment` (content.rs:116-121): content type, byte size, an
optional remote download key and an optional inline body. -/
structure Attachment where
  content_type : String
  size : Nat
  key : Option String
  body : Option String
deriving DecidableEq

/-- The action the content-resolution code takes for one attachment. -/
inductive ContentsAction where
  | invalid
  | download (attachment_key : String)
  | inlineBody (body : String)
deriving DecidableEq

/-- Embeds the match over `(attachment.key, attachment.body)` inside
`KivraFS::attachment` (fuse.rs:199-212). Arm order is significant:
`(None, None)` is the `Invalid` error, the arm `(Some(attachment_key), _)`
performs the download, and only the remaining case `(None, Some(body))`
reaches the inline-body arm `(_, Some(body))`. -/
def attachmentContents (a : Attachment) : ContentsAction :=
  match a.key, a.body with
  | none, none => .invalid
  | some k, _ => .download k
  | _, some b => .inlineBody b

/-- First-match association lookup in a plain store, the model of the key
lookup performed by the `cached` crate. -/
def storeFind {K V : Type} [DecidableEq K] : List (K × V) → K → Option V
  | [], _ => none
  | (k1, v) :: rest, k => if k1 = k then some v else storeFind rest k

/-- Embeds `KivraFS::attachment` (fuse.rs:185-215): the whole content
resolution runs inside `cache_try_get_or_set_with` from the `cached`
crate, keyed by `(entry.id, attachment_id)` — a stored value is returned
without running the closure; otherwise the closure runs once and a
success is stored before it is returned, while an error is returned with
the store unchanged. (The call site names `self.details_cache`, a type
mismatch in this non-compiling file; the field with this key and value
type is `attachment_cache`.) The closure indexes `details.parts` by
`attachment_id`, giving `NotFound` when out of range (fuse.rs:195-198),
and then follows the `attachmentContents` match: `Invalid` is an error; a
download key invokes `download_attachment`, modelled by the `download`
argument, where `none` is a client error, which the closure maps to
`InternalError` (the item remote key also passed to the client is
determined by `entry_id` and suppressed); an inline body is wrapped as
bytes. The result is the returned bytes-or-error, the store after the
call, and the number of `download_attachment` invocations made by the
call. -/
def attachment_resolve (store : List ((Nat × Nat) × String))
    (entry_id attachment_id : Nat) (parts : List Attachment)
    (download : String → Option String) :
    Except Error String × List ((Nat × Nat) × String) × Nat :=
  match storeFind store (entry_id, attachment_id) with
  | some v => (.ok v, store, 0)
  | none =>
    match parts[attachment_id]? with
    | none => (.error .notFound, store, 0)
    | some a =>
      match attachmentContents a with
      | .invalid => (.error .invalid, store, 0)
      | .download k =>
        match download k with
        | none => (.error .internalError, store, 1)
        | some bytes => (.ok bytes, ((entry_id, attachment_id), bytes) :: store, 1)
      | .inlineBody b => (.ok b, ((entry_id, attachment_id), b) :: store, 0)

/-! ## src/fuse.rs — read slicing -/

/-- Embeds the reply logic of `KivraFS::read` on an attachment inode
(fuse.rs:336-345): empty data replies with an empty slice, otherwise the
code computes `start = offset as usize`,
`end = min(data.len(), start + size as usize) - 1` and replies with
`&data[start..end]`. `none` models a Rust panic: the `usize` subtraction
underflows when the minimum is 0, and the slice operation panics when
`start > end`. -/
def readSlice (data : List Nat) (offset : Nat) (size : Nat) : Option (List Nat) :=
  if data.isEmpty then some []
  else
    let start := offset
    let m := min data.length (start + size)
    if m = 0 then none
    else if start ≤ m - 1 then some ((data.take (m - 1)).drop start)
    else none

/-! ## src/fuse.rs — lookup, readdir and pagination -/

/-- Modelled from the spec: `InboxItem::name` is invoked by `readdir`
(fuse.rs:377) and by the commented-out body of `lookup` (fuse.rs:236) but
is defined nowhere under src. Spec section 6 specifies it only as "an
implementation-defined stable string derived from sender and subject",
so it is modelled as a fixed injective combination of the two fields. -/
def InboxItem.name (i : InboxItem) : String := i.sender_name ++ "-" ++ i.subject

/-- Embeds the live body of `KivraFS::lookup` (fuse.rs:221-288): it
classifies the parent inode (fuse.rs:228-230) and then returns; every
statement that would call `reply.entry` or `reply.error` is commented out
(fuse.rs:231-287), so no reply is ever produced, which `none` models. -/
def lookup_reply (_parent : Nat) (_name : String) : Option (Except Nat Nat) := none

/-- Embeds the branch structure of `KivraFS::readdir` over the resolved
inode (fuse.rs:358-421): an unresolvable inode replies `ENOENT`
(fuse.rs:417-420), an `Attachment` inode replies `EINVAL` (fuse.rs:412-415,
commented "Not a directory"), and `Root` / `InboxEntry` proceed to
enumerate entries. -/
def readdirClassifyReply : Option Inode → Except Nat Unit
  | none => .error ENOENT
  | some (.attachment _ _) => .error EINVAL
  | some _ => .ok ()

/-- Embeds the `Root` arm of `readdir` (fuse.rs:369-380): one entry per
listing element, pairing the inode of the `InboxEntry` variant built from
`entry.id` with the synthesized display name `entry.item.name()`. -/
def readdirRootEntries (listing : List InboxEntry) : List (Nat × String) :=
  listing.map fun e => (Inode.to_u64 (.inboxEntry e.id), e.item.name)

/-- Embeds the `dotlinks` list (fuse.rs:423-426): "." and ".." are both
attached to an `InboxEntry` inode with id 1, whose `to_u64` is 2. -/
def dotlinks : List (Nat × String) :=
  [(Inode.to_u64 (.inboxEntry 1), "."), (Inode.to_u64 (.inboxEntry 1), "..")]

/-- The Rust cast `u64 as i64`: reinterpret the low 64 bits as a signed
value. -/
def u64_as_i64 (n : Nat) : Int :=
  if n % 2 ^ 64 < 2 ^ 63 then ((n % 2 ^ 64 : Nat) : Int)
  else ((n % 2 ^ 64 : Nat) : Int) - 2 ^ 64

/-- Embeds one `readdir` reply page (fuse.rs:428-443): chain `dotlinks`
with the directory entries, keep those with `inode.to_u64() as i64 >
offset`, and fill the reply buffer in order — each added entry carries the
resume offset `inode.to_u64() as i64 + 1`, and the loop breaks once
`reply.add` reports the buffer full, which the capacity `cap` (number of
entries the buffer holds) models. Each returned triple is
(inode, name, resume offset). -/
def readdirPage (entries : List (Nat × String)) (offset : Int) (cap : Nat) :
    List (Nat × String × Int) :=
  (((dotlinks ++ entries).filter fun p => offset < u64_as_i64 p.1).take cap).map
    fun p => (p.1, p.2, u64_as_i64 p.1 + 1)

/-- Concrete fixture: two messages, created at instants 100 and 200. -/
def msgItemA : InboxItem := ⟨"keyA", "Alice", 100, "Hello"⟩

/-- Second fixture message, created after `msgItemA`. -/
def msgItemB : InboxItem := ⟨"keyB", "Bob", 200, "World"⟩

/-- The listing the driver builds from a fetch returning the two fixture
messages (newest first, as the remote may order them): `msgItemA` gets
sequence number 1, `msgItemB` gets 2. -/
def sampleListing : List InboxEntry := from_content_specs [msgItemB, msgItemA]

/-! ## Helper lemmas about the listing construction -/

theorem sortItems_perm (l : List InboxItem) : (sortItems l).Perm l :=
  List.perm_insertionSort createdLe l

theorem sortItems_sorted (l : List InboxItem) : List.Sorted createdLe (sortItems l) :=
  List.sorted_insertionSort createdLe l

theorem pairwise_and {α : Type} {R S : α → α → Prop} {l : List α}
    (h1 : l.Pairwise R) (h2 : l.Pairwise S) :
    l.Pairwise fun a b => R a b ∧ S a b := by
  induction l with
  | nil => exact List.Pairwise.nil
  | cons x xs ih =>
    rw [List.pairwise_cons] at h1 h2 ⊢
    exact ⟨fun b hb => ⟨h1.1 b hb, h2.1 b hb⟩, ih h1.2 h2.2⟩

theorem pairwise_ne_of_nodup_map {l : List InboxItem}
    (h : (l.map InboxItem.created_at).Nodup) :
    l.Pairwise fun a b => a.created_at ≠ b.created_at :=
  List.pairwise_map.mp h

theorem sortItems_sorted_lt {l : List InboxItem}
    (h : (l.map InboxItem.created_at).Nodup) :
    List.Sorted createdLt (sortItems l) := by
  have hle : (sortItems l).Pairwise createdLe := sortItems_sorted l
  have hmp : ((sortItems l).map InboxItem.created_at).Perm (l.map InboxItem.created_at) :=
    (sortItems_perm l).map _
  have hnd : ((sortItems l).map InboxItem.created_at).Nodup := hmp.nodup_iff.mpr h
  have hne := pairwise_ne_of_nodup_map hnd
  exact (pairwise_and hle hne).imp fun hab => lt_of_le_of_ne hab.1 hab.2

theorem sortItems_eq_of_perm {l1 l2 : List InboxItem} (hp : l1.Perm l2)
    (h : (l1.map InboxItem.created_at).Nodup) : sortItems l1 = sortItems l2 := by
  have h2 : (l2.map InboxItem.created_at).Nodup := ((hp.map _).nodup_iff).mp h
  have hperm : (sortItems l1).Perm (sortItems l2) :=
    (sortItems_perm l1).trans (hp.trans (sortItems_perm l2).symm)
  exact List.eq_of_perm_of_sorted hperm (sortItems_sorted_lt h) (sortItems_sorted_lt h2)

theorem numberFrom_map_item : ∀ (n : Nat) (l : List InboxItem),
    (numberFrom n l).map InboxEntry.item = l
  | _, [] => rfl
  | n, _ :: xs => by simp [numberFrom, numberFrom_map_item (n + 1) xs]

theorem numberFrom_map_id : ∀ (n : Nat) (l : List InboxItem),
    (numberFrom n l).map InboxEntry.id = List.range' n l.length
  | _, [] => rfl
  | n, _ :: xs => by
    simp only [numberFrom, List.map_cons, numberFrom_map_id (n + 1) xs, List.length_cons]
    rfl

theorem item_mem_of_mem_numberFrom : ∀ {n : Nat} {l : List InboxItem} {e : InboxEntry},
    e ∈ numberFrom n l → e.item ∈ l := by
  intro n l
  induction l generalizing n with
  | nil => intro e h; simp [numberFrom] at h
  | cons x xs ih =>
    intro e h
    simp only [numberFrom, List.mem_cons] at h
    rcases h with h | h
    · subst h; exact List.mem_cons_self _ _
    · exact List.mem_cons_of_mem _ (ih h)

theorem numberFrom_pairwise {R : InboxItem → InboxItem → Prop} :
    ∀ (n : Nat) {l : List InboxItem}, l.Pairwise R →
      (numberFrom n l).Pairwise fun e1 e2 => R e1.item e2.item := by
  intro n l h
  induction h generalizing n with
  | nil => exact List.Pairwise.nil
  | cons hh _ ih =>
    exact List.Pairwise.cons
      (fun e he => hh e.item (item_mem_of_mem_numberFrom he)) (ih (n + 1))

theorem filter_orderedInsert (t : Int) (a : InboxItem) :
    ∀ l : List InboxItem,
      (List.orderedInsert createdLe a l).filter (fun x => x.created_at = t) =
        if a.created_at = t then a :: l.filter (fun x => x.created_at = t)
        else l.filter (fun x => x.created_at = t) := by
  intro l
  induction l with
  | nil => by_cases ht : a.created_at = t <;> simp [List.orderedInsert, List.filter_cons, ht]
  | cons b bs ih =>
    by_cases hab : createdLe a b
    · rw [List.orderedInsert_of_le (r := createdLe) bs hab]
      by_cases ht : a.created_at = t <;> simp [List.filter_cons, ht]
    · have hstep : List.orderedInsert createdLe a (b :: bs) =
          b :: List.orderedInsert createdLe a bs := by
        simp [List.orderedInsert, hab]
      rw [hstep]
      by_cases ht : a.created_at = t
      · by_cases hbt : b.created_at = t
        · exact absurd (le_of_eq (ht.trans hbt.symm)) hab
        · simp [List.filter_cons, hbt, ih, ht]
      · by_cases hbt : b.created_at = t <;> simp [List.filter_cons, hbt, ih, ht]

theorem filter_sortItems (t : Int) : ∀ l : List InboxItem,
    (sortItems l).filter (fun x => x.created_at = t) =
      l.filter (fun x => x.created_at = t) := by
  intro l
  induction l with
  | nil => rfl
  | cons x xs ih =>
    simp only [sortItems, List.insertionSort] at *
    rw [filter_orderedInsert]
    by_cases ht : x.created_at = t <;> simp [List.filter_cons, ht, ih]

/-! ## Claim theorems about the listing construction -/

/-- C8 (amended): `from_content_specs` sorts the fetched records by
creation timestamp ascending, assigns 1-based sequence numbers in that
order, and keeps exactly the fetched records; for any two fetches
returning the same underlying records, the sequence-number assignment is
identical provided the creation timestamps are pairwise distinct. -/
theorem from_content_specs_order (l : List InboxItem) :
    ((from_content_specs l).map InboxEntry.id = List.range' 1 l.length)
  ∧ ((from_content_specs l).Pairwise fun e1 e2 =>
      e1.item.created_at ≤ e2.item.created_at)
  ∧ (((from_content_specs l).map InboxEntry.item).Perm l)
  ∧ (∀ l2 : List InboxItem, l.Perm l2 → (l.map InboxItem.created_at).Nodup →
      from_content_specs l = from_content_specs l2) := by
  refine ⟨?_, ?_, ?_, ?_⟩
  · rw [from_content_specs, numberFrom_map_id, (sortItems_perm l).length_eq]
  · exact numberFrom_pairwise 1 (sortItems_sorted l)
  · rw [from_content_specs, numberFrom_map_item]; exact sortItems_perm l
  · intro l2 hp hnd
    rw [from_content_specs, from_content_specs, sortItems_eq_of_perm hp hnd]

/-- C8 (witness): the order-insensitivity clause and the id clause of
`from_content_specs_order`, instantiated at a concrete two-message fetch
with distinct creation timestamps. -/
theorem from_content_specs_order_witness :
    from_content_specs [⟨"b", "B", 200, "s2"⟩, ⟨"a", "A", 100, "s1"⟩] =
      from_content_specs [⟨"a", "A", 100, "s1"⟩, ⟨"b", "B", 200, "s2"⟩]
  ∧ (from_content_specs [⟨"b", "B", 200, "s2"⟩, ⟨"a", "A", 100, "s1"⟩]).map
      InboxEntry.id = List.range' 1 2 :=
  ⟨(from_content_specs_order _).2.2.2 _ (by decide) (by decide),
   (from_content_specs_order _).1⟩

/-- C8 (counterexample): two fetches returning the same underlying records
in different orders, where two records share a creation timestamp, receive
different sequence-number assignments — the claim as stated, which demands
an identical assignment for any two fetches of the same records, fails. -/
theorem from_content_specs_tie_counterexample :
    ([⟨"a", "A", 100, "s1"⟩, ⟨"b", "B", 100, "s2"⟩] : List InboxItem).Perm
      [⟨"b", "B", 100, "s2"⟩, ⟨"a", "A", 100, "s1"⟩]
  ∧ from_content_specs [⟨"a", "A", 100, "s1"⟩, ⟨"b", "B", 100, "s2"⟩] ≠
      from_content_specs [⟨"b", "B", 100, "s2"⟩, ⟨"a", "A", 100, "s1"⟩] := by
  constructor
  · decide
  · decide

/-- C10: `from_content_specs` is insensitive to the fetch order when the
creation timestamps are pairwise distinct; the sort is stable — for every
timestamp, the records carrying it appear in the output in exactly their
input order (expressed by the filter characterization) — and therefore,
with a shared timestamp, differently-ordered fetches can produce different
listings, witnessed by a concrete tie. -/
theorem from_content_specs_perm_stability :
    (∀ l1 l2 : List InboxItem, l1.Perm l2 →
      (l1.map InboxItem.created_at).Nodup →
      from_content_specs l1 = from_content_specs l2)
  ∧ (∀ (l : List InboxItem) (t : Int),
      (sortItems l).filter (fun x => x.created_at = t) =
        l.filter (fun x => x.created_at = t))
  ∧ (from_content_specs [⟨"x", "X", 100, "sx"⟩, ⟨"y", "Y", 100, "sy"⟩] ≠
      from_content_specs [⟨"y", "Y", 100, "sy"⟩, ⟨"x", "X", 100, "sx"⟩]) := by
  refine ⟨?_, ?_, ?_⟩
  · intro l1 l2 hp hnd
    rw [from_content_specs, from_content_specs, sortItems_eq_of_perm hp hnd]
  · intro l t; exact filter_sortItems t l
  · decide

/-- C10 (witness): the order-insensitivity clause of
`from_content_specs_perm_stability` at a concrete two-message fetch with
distinct creation timestamps. -/
theorem from_content_specs_perm_stability_witness :
    from_content_specs [⟨"p", "P", 5, "s"⟩, ⟨"q", "Q", 3, "t"⟩] =
      from_content_specs [⟨"q", "Q", 3, "t"⟩, ⟨"p", "P", 5, "s"⟩] :=
  from_content_specs_perm_stability.1 _ _ (by decide) (by decide)

/-! ## Claim theorems about the cache -/

/-- C4: contract of `Cache::cached_get`. A stored entry whose age does not
exceed the time-to-live is returned without invoking the getter; a plain
miss, and equally an entry older than the time-to-live, runs the miss
branch, which invokes the getter exactly once and on success stores the
result stamped with the current instant before returning it; a
miss-then-hit pair of calls within the time-to-live invokes the getter
exactly once in total; on getter failure the error is returned, the cache
is unchanged, and a later call invokes the getter again. -/
theorem cache_cached_get_contract {K V E : Type} [DecidableEq K]
    (c : Cache K V) (k : K) :
    (∀ (now : Int) (g : Unit → Except E V) (entry : CacheValue V),
      assocFind c.cache k = some entry →
      ¬ now - entry.updated_at > c.expiry_time →
      c.cached_get now k g = (Except.ok entry.value, c, 0))
  ∧ (∀ (now : Int) (g : Unit → Except E V),
      c.lookup now k = none →
      c.cached_get now k g = c.missResult now k (g ()))
  ∧ (∀ (now : Int) (g : Unit → Except E V) (entry : CacheValue V),
      assocFind c.cache k = some entry →
      now - entry.updated_at > c.expiry_time →
      c.cached_get now k g = c.missResult now k (g ()))
  ∧ (∀ (t1 t2 : Int) (g g2 : Unit → Except E V) (v : V),
      c.lookup t1 k = none → g () = Except.ok v →
      c.cached_get t1 k g = (Except.ok v, c.insert t1 k v, 1)
      ∧ (¬ t2 - t1 > c.expiry_time →
          (c.insert t1 k v).cached_get t2 k g2 =
            (Except.ok v, c.insert t1 k v, 0)))
  ∧ (∀ (t1 t2 : Int) (g1 g2 : Unit → Except E V) (e : E),
      assocFind c.cache k = none → g1 () = Except.error e →
      c.cached_get t1 k g1 = (Except.error e, c, 1)
      ∧ (c.cached_get t2 k g2).2.2 = 1) := by
  refine ⟨?_, ?_, ?_, ?_, ?_⟩
  · intro now g entry hfind hfresh
    simp [Cache.cached_get, Cache.lookup, hfind, hfresh]
  · intro now g hnone
    simp [Cache.cached_get, hnone]
  · intro now g entry hfind hexp
    have hnone : c.lookup now k = none := by simp [Cache.lookup, hfind, hexp]
    simp [Cache.cached_get, hnone]
  · intro t1 t2 g g2 v hnone hok
    constructor
    · simp [Cache.cached_get, hnone, Cache.missResult, hok]
    · intro hfresh
      simp [Cache.cached_get, Cache.lookup, Cache.insert, assocFind, hfresh]
  · intro t1 t2 g1 g2 e hfind hne
    have hnone : ∀ t : Int, c.lookup t k = none := fun t => by
      simp [Cache.lookup, hfind]
    constructor
    · simp [Cache.cached_get, hnone t1, Cache.missResult, hne]
    · rw [Cache.cached_get, hnone t2]
      cases g2 () <;> simp [Cache.missResult]

/-- C4 (witness): `cache_cached_get_contract` at concrete inputs — a fresh
hit at age 30 of a 60-second cache returns the stored 42 with zero getter
calls; a miss stores and returns the fetched 7 with one getter call; the
stored 7 is then returned at age 50 with zero getter calls; a failing
getter returns its error, leaves the empty cache unchanged, and the next
call invokes the getter again. -/
theorem cache_cached_get_contract_witness :
    Cache.cached_get (E := Unit) (⟨[(1, ⟨0, 42⟩)], 60⟩ : Cache Nat Nat) 30 1
      (fun _ => Except.error ()) = (Except.ok 42, ⟨[(1, ⟨0, 42⟩)], 60⟩, 0)
  ∧ Cache.cached_get (E := Unit) (⟨[], 60⟩ : Cache Nat Nat) 0 1
      (fun _ => Except.ok 7) = (Except.ok 7, ⟨[(1, ⟨0, 7⟩)], 60⟩, 1)
  ∧ Cache.cached_get (E := Unit) (⟨[(1, ⟨0, 7⟩)], 60⟩ : Cache Nat Nat) 50 1
      (fun _ => Except.error ()) = (Except.ok 7, ⟨[(1, ⟨0, 7⟩)], 60⟩, 0)
  ∧ Cache.cached_get (E := Unit) (⟨[], 60⟩ : Cache Nat Nat) 0 1
      (fun _ => Except.error ()) = (Except.error (), ⟨[], 60⟩, 1)
  ∧ (Cache.cached_get (E := Unit) (⟨[], 60⟩ : Cache Nat Nat) 70 1
      (fun _ => Except.ok 9)).2.2 = 1 := by
  refine ⟨?_, ?_, ?_, ?_, ?_⟩
  · exact (cache_cached_get_contract ⟨[(1, ⟨0, 42⟩)], 60⟩ 1).1 30 _ ⟨0, 42⟩ rfl (by decide)
  · exact ((cache_cached_get_contract ⟨[], 60⟩ 1).2.2.2.1 0 0
      (fun _ => Except.ok 7) (fun _ => Except.ok 7) 7 rfl rfl).1
  · exact (cache_cached_get_contract ⟨[(1, ⟨0, 7⟩)], 60⟩ 1).1 50 _ ⟨0, 7⟩ rfl (by decide)
  · exact ((cache_cached_get_contract ⟨[], 60⟩ 1).2.2.2.2 0 70
      (fun _ => Except.error ()) (fun _ => Except.ok 9) () rfl rfl).1
  · exact ((cache_cached_get_contract ⟨[], 60⟩ 1).2.2.2.2 0 70
      (fun _ => Except.error ()) (fun _ => Except.ok 9) () rfl rfl).2

/-! ## Claim theorems about fuse.rs -/

/-- C1 (code-bug evidence): the inode codec as written violates the
claimed round-trip and injectivity — `InboxEntry { entry_id: 0 }` encodes
to 1, colliding with `Root`; the entry-id extractor applied to the
encoding of `InboxEntry { entry_id: 5 }` returns 0 (the root marker), not
5, because the encoding is never shifted into the high 32 bits;
`InboxEntry { entry_id: 2^32 - 1 }` collides with
`Attachment { 0, 0 }`; and the encoding of `Attachment { 3, 0 }` has low
32 bits 0, which the driver classifies as a directory, because the
attachment id is not offset by +1. -/
theorem inode_codec_violation :
    Inode.to_u64 (.inboxEntry 0) = Inode.to_u64 .root
  ∧ Inode.entry_id (Inode.to_u64 (.inboxEntry 5)) = 0
  ∧ Inode.to_u64 (.inboxEntry (2 ^ 32 - 1)) = Inode.to_u64 (.attachment 0 0)
  ∧ Inode.attachment_id (Inode.to_u64 (.attachment 3 0)) = 0 := by
  refine ⟨rfl, by decide, by decide, by decide⟩

/-- C2 (code-bug evidence): on the two-message fixture, `readdir` on the
root lists the synthesized names paired with child inodes, but `lookup`
never produces any reply for any of them — its implementation is commented
out — so no listed (parent, name, child) triple round-trips. -/
theorem lookup_never_replies_readdir_name :
    readdirRootEntries sampleListing =
      [(2, "Alice-Hello"), (3, "Bob-World")]
  ∧ lookup_reply 1 "Alice-Hello" = none
  ∧ lookup_reply 1 "Bob-World" = none := by
  refine ⟨by decide, rfl, rfl⟩

/-- C3 (code-bug evidence): paginated readdir skips entries. On the
two-message fixture the first page (resume offset 0, buffer capacity 3)
delivers ".", ".." and the first message, each reporting resume offset 3;
the follow-up call at offset 3 delivers nothing, because the filter keeps
only inodes strictly greater than the offset, so the second message
(inode 3, name "Bob-World") is never enumerated. -/
theorem readdir_pagination_skips :
    readdirPage (readdirRootEntries sampleListing) 0 3 =
      [(2, ".", 3), (2, "..", 3), (2, "Alice-Hello", 3)]
  ∧ readdirPage (readdirRootEntries sampleListing) 3 3 = [] := by
  refine ⟨by decide, by decide⟩

/-- C5 (counterexample): for an attachment carrying both an inline body
and a download key, the resolution match fires the download arm — the
download key, not the inline body, takes precedence, so resolution does
not return the inline bytes and does invoke the download. -/
theorem attachment_both_present_downloads :
    attachmentContents ⟨"application/pdf", 3, some "k0", some "body0"⟩ =
      ContentsAction.download "k0"
  ∧ ContentsAction.download "k0" ≠ ContentsAction.inlineBody "body0" := by
  refine ⟨rfl, by decide⟩

/-- C5 (amended): attachment content resolution is a cached operation
keyed by (entry id, attachment id). A stored result is returned without
any download; on a miss, an attachment with neither inline body nor
download key fails with `Invalid` (and, the resolution being
deterministic, never succeeds); an attachment with a download key obtains
its contents by a cached download using that key — invoked exactly once,
even when an inline body is also present, since the download key takes
precedence — and a successful result is stored, so a later resolution of
the same (entry id, attachment id) returns the same bytes with zero
further downloads; a failed download returns `InternalError` with
nothing stored; the inline body bytes are returned, with no download,
exactly when the download key is absent. -/
theorem attachment_resolution_contract :
    (∀ (store : List ((Nat × Nat) × String)) (e i : Nat)
        (parts : List Attachment) (dl : String → Option String) (v : String),
      storeFind store (e, i) = some v →
      attachment_resolve store e i parts dl = (Except.ok v, store, 0))
  ∧ (∀ (store : List ((Nat × Nat) × String)) (e i : Nat)
        (parts : List Attachment) (dl : String → Option String)
        (ct : String) (sz : Nat),
      storeFind store (e, i) = none →
      parts[i]? = some ⟨ct, sz, none, none⟩ →
      attachment_resolve store e i parts dl = (Except.error Error.invalid, store, 0))
  ∧ (∀ (store : List ((Nat × Nat) × String)) (e i : Nat)
        (parts : List Attachment) (dl : String → Option String)
        (ct : String) (sz : Nat) (k : String) (ob : Option String) (bytes : String),
      storeFind store (e, i) = none →
      parts[i]? = some ⟨ct, sz, some k, ob⟩ →
      dl k = some bytes →
      attachment_resolve store e i parts dl =
        (Except.ok bytes, ((e, i), bytes) :: store, 1)
      ∧ (∀ dl2 : String → Option String,
          attachment_resolve (((e, i), bytes) :: store) e i parts dl2 =
            (Except.ok bytes, ((e, i), bytes) :: store, 0)))
  ∧ (∀ (store : List ((Nat × Nat) × String)) (e i : Nat)
        (parts : List Attachment) (dl : String → Option String)
        (ct : String) (sz : Nat) (k : String) (ob : Option String),
      storeFind store (e, i) = none →
      parts[i]? = some ⟨ct, sz, some k, ob⟩ →
      dl k = none →
      attachment_resolve store e i parts dl =
        (Except.error Error.internalError, store, 1))
  ∧ (∀ (store : List ((Nat × Nat) × String)) (e i : Nat)
        (parts : List Attachment) (dl : String → Option String)
        (ct : String) (sz : Nat) (b : String),
      storeFind store (e, i) = none →
      parts[i]? = some ⟨ct, sz, none, some b⟩ →
      attachment_resolve store e i parts dl =
        (Except.ok b, ((e, i), b) :: store, 0)) := by
  refine ⟨?_, ?_, ?_, ?_, ?_⟩
  · intro store e i parts dl v hfind
    simp [attachment_resolve, hfind]
  · intro store e i parts dl ct sz hfind hget
    simp [attachment_resolve, hfind, hget, attachmentContents]
  · intro store e i parts dl ct sz k ob bytes hfind hget hdl
    constructor
    · cases ob <;> simp [attachment_resolve, hfind, hget, attachmentContents, hdl]
    · intro dl2
      simp [attachment_resolve, storeFind]
  · intro store e i parts dl ct sz k ob hfind hget hdl
    cases ob <;> simp [attachment_resolve, hfind, hget, attachmentContents, hdl]
  · intro store e i parts dl ct sz b hfind hget
    simp [attachment_resolve, hfind, hget, attachmentContents]

/-- C5 (witness): `attachment_resolution_contract` at concrete inputs —
on an empty store, resolving an attachment that carries both a download
key and an inline body downloads once, returns the downloaded bytes and
stores them; the follow-up resolution returns the stored bytes with zero
downloads even under a failing client; a keyless bodyless attachment
fails with `Invalid`; a failing download returns `InternalError` with
nothing stored; a body-only attachment returns the inline bytes with
zero downloads; a pre-stored value is returned without download. -/
theorem attachment_resolution_contract_witness :
    attachment_resolve [] 1 0 [⟨"application/pdf", 3, some "k0", some "body0"⟩]
      (fun _ => some "BYTES") = (Except.ok "BYTES", [((1, 0), "BYTES")], 1)
  ∧ attachment_resolve [((1, 0), "BYTES")] 1 0
      [⟨"application/pdf", 3, some "k0", some "body0"⟩] (fun _ => none) =
      (Except.ok "BYTES", [((1, 0), "BYTES")], 0)
  ∧ attachment_resolve [] 2 0 [⟨"text/plain", 0, none, none⟩] (fun _ => none) =
      (Except.error Error.invalid, [], 0)
  ∧ attachment_resolve [] 4 0 [⟨"application/pdf", 7, some "kk", none⟩]
      (fun _ => none) = (Except.error Error.internalError, [], 1)
  ∧ attachment_resolve [] 3 0 [⟨"text/html", 5, none, some "hello"⟩]
      (fun _ => none) = (Except.ok "hello", [((3, 0), "hello")], 0)
  ∧ attachment_resolve [((9, 9), "v")] 9 9 [] (fun _ => none) =
      (Except.ok "v", [((9, 9), "v")], 0) := by
  refine ⟨?_, ?_, ?_, ?_, ?_, ?_⟩
  · exact (attachment_resolution_contract.2.2.1 [] 1 0 _ _
      "application/pdf" 3 "k0" (some "body0") "BYTES" rfl rfl rfl).1
  · exact (attachment_resolution_contract.2.2.1 [] 1 0 _
      (fun _ => some "BYTES") "application/pdf" 3 "k0" (some "body0") "BYTES"
      rfl rfl rfl).2 (fun _ => none)
  · exact attachment_resolution_contract.2.1 [] 2 0 _ _ "text/plain" 0 rfl rfl
  · exact attachment_resolution_contract.2.2.2.1 [] 4 0 _ _
      "application/pdf" 7 "kk" none rfl rfl rfl
  · exact attachment_resolution_contract.2.2.2.2 [] 3 0 _ _ "text/html" 5 "hello"
      rfl rfl
  · exact attachment_resolution_contract.1 [((9, 9), "v")] 9 9 [] _ "v" rfl

/-- C6 (code-bug evidence): the read reply slicing is off by one and can
panic. On 5 bytes of content, a read at offset 0 for 5 bytes returns only
the first 4 bytes (the claim requires all 5); a read at offset 5 — at the
content length — panics on the inverted slice range instead of returning
an empty byte sequence. -/
theorem read_slice_off_by_one :
    readSlice [10, 20, 30, 40, 50] 0 5 = some [10, 20, 30, 40]
  ∧ readSlice [10, 20, 30, 40, 50] 5 3 = none := by
  refine ⟨by decide, by decide⟩

/-- C7 (counterexample): the details cache is constructed with
`TimedCache::with_lifespan(TTL.into())` where `TTL` is 60 seconds, so its
time-to-live is 60 seconds, not the claimed 60 minutes. -/
theorem details_cache_ttl_not_one_hour :
    details_cache_config.lifespan_secs = some 60
  ∧ details_cache_config.lifespan_secs ≠ some (60 * 60) := by
  refine ⟨rfl, by decide⟩

/-- C7 (amended): the three caches as `mount` constructs them — the
listing cache holds at most 1 entry with a 60-second time-to-live; the
details cache is unbounded by count with a 60-second time-to-live; the
attachment cache has no time-based expiry, is bounded to 10 entries, and
evicts in least-recently-used order. -/
theorem cache_configuration :
    inbox_cache_config = ⟨.timedSized, some 1, some 60⟩
  ∧ details_cache_config = ⟨.timed, none, some 60⟩
  ∧ attachment_cache_config = ⟨.sized, some 10, none⟩
  ∧ attachment_cache_config.kind.lruEviction = true := by
  refine ⟨rfl, rfl, rfl, rfl⟩

/-- C9 (counterexample): `readdir` on an Attachment inode replies `EINVAL`
(22), not `ENOTDIR` (20) as the claim states. -/
theorem readdir_attachment_errno_not_enotdir :
    readdirClassifyReply (some (.attachment 1 1)) ≠ Except.error ENOTDIR
  ∧ readdirClassifyReply (some (.attachment 1 1)) = Except.error EINVAL := by
  refine ⟨fun h => ?_, rfl⟩
  injection h with hv
  exact absurd hv (by decide)

/-- C9 (amended): a directory operation on an Attachment inode fails with
`EINVAL`, and the error enum is closed over exactly `NotFound`,
`InternalError`, `Invalid` and `IsDir` — there is no `IsNotDir` kind. -/
theorem readdir_attachment_einval :
    (∀ e a : Nat,
      readdirClassifyReply (some (.attachment e a)) = Except.error EINVAL)
  ∧ (∀ err : Error, err = .notFound ∨ err = .internalError ∨
      err = .invalid ∨ err = .isDir) := by
  constructor
  · intro e a; rfl
  · intro err; cases err
    · exact Or.inl rfl
    · exact Or.inr (Or.inl rfl)
    · exact Or.inr (Or.inr (Or.inl rfl))
    · exact Or.inr (Or.inr (Or.inr rfl))

end Kivinge
